import Mathlib

/-!
Verification of the `ratelimit` package of eth2-beaconchain-explorer
(`src/ratelimit/ratelimit.go`), a per-user multi-window API rate limiter.

The Go source is shallowly embedded: pure computations become Lean
functions; the redis round-trips are modelled by passing the counter
values the pipeline would observe and by emitting the command lists the
code would send; the mutable global tables of the limits refresher become
explicit state threaded through `updateRateLimits`.  Machine `int64`
values are modelled as `Int` (no operation in the verified fragment is
overflow-sensitive); Go `time.Time` comparisons are modelled as `Int`
timestamps with `After`/`Before` as `>`/`<`.
-/

namespace Ratelimit

/-- `type TimeWindow string` (ratelimit.go line 23). -/
abbrev TimeWindow := String

/-- ratelimit.go line 26. -/
def SecondTimeWindow : TimeWindow := "second"

/-- ratelimit.go line 27. -/
def HourTimeWindow : TimeWindow := "hour"

/-- ratelimit.go line 28. -/
def MonthTimeWindow : TimeWindow := "month"

/-- Quota triple, `type RateLimit struct` (lines 91-95).  A zero entry
means the window is not enforced. -/
structure RateLimit where
  second : Int
  hour : Int
  month : Int
  deriving Repr, DecidableEq

/-- `type RedisKey struct` (lines 115-118): a counter key together with
the expiry re-applied on refund.  The expiry timestamp is an `Int`. -/
structure RedisKey where
  key : String
  expireAt : Int
  deriving Repr, DecidableEq

/-- The part of `RateLimitResult` (lines 97-113) produced by
`rateLimitRequest` that the middleware and `postRateLimit` consume. -/
structure RateLimitResultM where
  weight : Int
  rateLimit : RateLimit
  redisKeys : List RedisKey
  redisStatsKey : String
  limit : Int
  remaining : Int
  reset : Int
  window : TimeWindow
  deriving Repr, DecidableEq

/-- Commands the code sends to redis, as far as counters are concerned
(`IncrBy`, `Incr`, `DecrBy`, `ExpireNX`, `ExpireAt`). -/
inductive RedisCmd where
  | incrBy (key : String) (v : Int)
  | incr (key : String)
  | decrBy (key : String) (v : Int)
  | expireNX (key : String) (seconds : Int)
  | expireAt (key : String) (t : Int)
  deriving Repr, DecidableEq

/-! ## Key construction (lines 686-693)

Go's `fmt.Sprintf` is modelled piecewise: `%04d`/`%02d` by `zeroPad`,
`%d` on an `int64` by `toString`, and — faithfully to the slip in line
686 — the `%s` verb applied to an `int64` argument by Go's bad-verb
output `%!s(int64=<value>)`. -/

/-- Go `%0<w>d` on a non-negative integer: left-pad with zeros to width `w`. -/
def zeroPad (w : Nat) (n : Nat) : String :=
  String.mk (List.replicate (w - (toString n).length) '0') ++ toString n

/-- Go `fmt` output for the `%s` verb applied to an `int64` value. -/
def goSprintfSInt64 (v : Int) : String :=
  "%!s(int64=" ++ (toString v ++ ")")

/-- `%04d-%02d-%02d-%02d` date-hour fragment used by the hour and stats keys. -/
def dateHourStr (y mo d hr : Nat) : String :=
  zeroPad 4 y ++ "-" ++ zeroPad 2 mo ++ "-" ++ zeroPad 2 d ++ "-" ++ zeroPad 2 hr

/-- `%04d-%02d` date fragment used by the month key. -/
def dateMonthStr (y mo : Nat) : String :=
  zeroPad 4 y ++ "-" ++ zeroPad 2 mo

/-- Line 686: `fmt.Sprintf("ratelimit:second:%s:%s", res.Bucket, res.UserId)`
where `res.UserId` is an `int64` formatted with the `%s` verb. -/
def rateLimitSecondKey (bucket : String) (uid : Int) : String :=
  "ratelimit:second:" ++ (bucket ++ ":" ++ goSprintfSInt64 uid)

/-- Line 687: `fmt.Sprintf("ratelimit:hour:%04d-%02d-%02d-%02d:%s:%d", ...)`. -/
def rateLimitHourKey (y mo d hr : Nat) (bucket : String) (uid : Int) : String :=
  "ratelimit:hour:" ++ (dateHourStr y mo d hr ++ ":" ++ bucket ++ ":" ++ toString uid)

/-- Line 688: `fmt.Sprintf("ratelimit:month:%04d-%02d:%s:%d", ...)`. -/
def rateLimitMonthKey (y mo : Nat) (bucket : String) (uid : Int) : String :=
  "ratelimit:month:" ++ (dateMonthStr y mo ++ ":" ++ bucket ++ ":" ++ toString uid)

/-- Line 690: stats key for a caller with a valid api key. -/
def rateLimitStatsKeyUid (y mo d hr : Nat) (uid : Int) (route : String) : String :=
  "ratelimit:stats:" ++ (dateHourStr y mo d hr ++ ":" ++ toString uid ++ ":" ++ route)

/-- Line 692: stats key for a caller without a valid api key. -/
def rateLimitStatsKeyNoKey (y mo d hr : Nat) (route : String) : String :=
  "ratelimit:stats:" ++ (dateHourStr y mo d hr ++ ":" ++ "nokey" ++ ":" ++ route)

/-- Lines 690-693: the uid variant, overwritten by the `nokey` variant
when the key is not valid. -/
def rateLimitStatsKey (isValidKey : Bool) (y mo d hr : Nat) (uid : Int) (route : String) : String :=
  if isValidKey then rateLimitStatsKeyUid y mo d hr uid route
  else rateLimitStatsKeyNoKey y mo d hr route

/-! ## Decision phase (lines 723-768)

Each enforced window is processed by the same three-way block: over the
limit → fill the result and `return` (modelled by the `Bool` stop flag);
`limit - value > res.Limit` → overwrite the reported quadruple and fall
through; otherwise fall through unchanged. -/

/-- One window block of lines 723-736 / 738-751 / 753-766.  Returns the
updated result and `true` when the Go code executes `return res, nil`
inside the block (the over-limit early return). -/
def chargeStep (limit val reset0 : Int) (w : TimeWindow) (res : RateLimitResultM) :
    RateLimitResultM × Bool :=
  if limit > 0 then
    if val > limit then
      ({ res with limit := limit, remaining := 0, reset := reset0, window := w }, true)
    else if limit - val > res.limit then
      ({ res with limit := limit, remaining := limit - val, reset := reset0, window := w }, false)
    else (res, false)
  else (res, false)

/-- The second → hour → month decision chain of lines 723-768.  `secVal`,
`hourVal`, `monthVal` are the post-increment counter values returned by
the redis pipeline; `tHour`/`tMonth` are `int64(timeUntilNext*.Seconds())`. -/
def rateLimitWindows (rl : RateLimit) (secVal hourVal monthVal tHour tMonth : Int)
    (res0 : RateLimitResultM) : RateLimitResultM :=
  let s := chargeStep rl.second secVal 1 SecondTimeWindow res0
  if s.2 then s.1 else
  let h := chargeStep rl.hour hourVal tHour HourTimeWindow s.1
  if h.2 then h.1 else
  (chargeStep rl.month monthVal tMonth MonthTimeWindow h.1).1

/-- `rateLimitRequest` (lines 638-769) after a successful pipeline
round-trip.  `secOld`, `hourOld`, `monthOld` are the counter values
stored in redis before this request's `IncrBy weight`; `hourExp` and
`monthExp` are the `expireat` timestamps (window end + 60s). -/
def rateLimitRequest (rl : RateLimit) (weight : Int) (bucket : String) (uid : Int)
    (isValidKey : Bool) (route : String) (y mo d hr : Nat)
    (secOld hourOld monthOld : Int) (tHour tMonth : Int) (hourExp monthExp : Int) :
    RateLimitResultM :=
  let hourKey := rateLimitHourKey y mo d hr bucket uid
  let monthKey := rateLimitMonthKey y mo bucket uid
  let res0 : RateLimitResultM :=
    { weight := weight
      rateLimit := rl
      redisKeys :=
        (if rl.hour > 0 then [⟨hourKey, hourExp⟩] else [])
          ++ (if rl.month > 0 then [⟨monthKey, monthExp⟩] else [])
      redisStatsKey := rateLimitStatsKey isValidKey y mo d hr uid route
      limit := 0
      remaining := 0
      reset := 0
      window := "" }
  rateLimitWindows rl (secOld + weight) (hourOld + weight) (monthOld + weight) tHour tMonth res0

/-- The commands of the charging pipeline, lines 696-717: per enforced
window an `IncrBy` and the expiry command, then `Incr` on the stats key. -/
def rateLimitChargeCommands (rl : RateLimit) (weight : Int) (bucket : String) (uid : Int)
    (isValidKey : Bool) (route : String) (y mo d hr : Nat) (hourExp monthExp : Int) :
    List RedisCmd :=
  (if rl.second > 0 then
    [RedisCmd.incrBy (rateLimitSecondKey bucket uid) weight,
     RedisCmd.expireNX (rateLimitSecondKey bucket uid) 1]
   else [])
  ++ (if rl.hour > 0 then
    [RedisCmd.incrBy (rateLimitHourKey y mo d hr bucket uid) weight,
     RedisCmd.expireAt (rateLimitHourKey y mo d hr bucket uid) hourExp]
   else [])
  ++ (if rl.month > 0 then
    [RedisCmd.incrBy (rateLimitMonthKey y mo bucket uid) weight,
     RedisCmd.expireAt (rateLimitMonthKey y mo bucket uid) monthExp]
   else [])
  ++ [RedisCmd.incr (rateLimitStatsKey isValidKey y mo d hr uid route)]

/-- `postRateLimit` (lines 617-635): nothing for status 200, otherwise
`DecrBy weight` + `ExpireAt` for every charged hour/month key and
`DecrBy 1` on the stats key. -/
def postRateLimit (redisKeys : List RedisKey) (statsKey : String) (weight : Int)
    (status : Int) : List RedisCmd :=
  if status = 200 then []
  else
    redisKeys.flatMap (fun k => [RedisCmd.decrBy k.key weight, RedisCmd.expireAt k.key k.expireAt])
      ++ [RedisCmd.decrBy statsKey 1]

/-- Effect of one command on the integer value stored at counter `k`
(expiries do not change the value). -/
def cmdDelta (k : String) : RedisCmd → Int
  | RedisCmd.incrBy key v => if key = k then v else 0
  | RedisCmd.incr key => if key = k then 1 else 0
  | RedisCmd.decrBy key v => if key = k then -v else 0
  | RedisCmd.expireNX _ _ => 0
  | RedisCmd.expireAt _ _ => 0

/-- Net change a command list applies to the counter stored at `k`. -/
def netDelta (cmds : List RedisCmd) (k : String) : Int :=
  (cmds.map (cmdDelta k)).sum

/-! ## The HTTP middleware decision (lines 228-282) -/

/-- Headers set by the middleware (lines 251-263, 266).  The per-window
limit headers are present only when the window is enforced. -/
structure RLHeaders where
  limit : Int
  remaining : Int
  reset : Int
  limitSecond : Option Int
  limitHour : Option Int
  limitMonth : Option Int
  retryAfter : Option Int
  deriving Repr, DecidableEq

/-- Lines 251-263: unconditional triple plus per-enforced-window limits. -/
def setRateLimitHeaders (res : RateLimitResultM) : RLHeaders :=
  { limit := res.limit
    remaining := res.remaining
    reset := res.reset
    limitSecond := if res.rateLimit.second > 0 then some res.rateLimit.second else none
    limitHour := if res.rateLimit.hour > 0 then some res.rateLimit.hour else none
    limitMonth := if res.rateLimit.month > 0 then some res.rateLimit.month else none
    retryAfter := none }

/-- Observable outcome of one pass through the middleware handler. -/
inductive HttpOutcome where
  | nextNoHeaders
  | fallback
  | rejected429 (h : RLHeaders)
  | admittedNext (h : RLHeaders)
  deriving Repr, DecidableEq

/-- `HttpMiddleware` (lines 230-281): unselected requests and charge
failures go straight to the downstream handler with no rate-limit
headers; an unhealthy redis diverts to the fallback limiter; otherwise
headers are set and the request is rejected with 429 iff
`rl.Weight > rl.Remaining` (line 265). -/
def httpMiddleware (selected redisHealthy : Bool) (charge : Except String RateLimitResultM) :
    HttpOutcome :=
  if selected = false then HttpOutcome.nextNoHeaders
  else if redisHealthy = false then HttpOutcome.fallback
  else
    match charge with
    | Except.error _ => HttpOutcome.nextNoHeaders
    | Except.ok rl =>
      let h := setRateLimitHeaders rl
      if rl.weight > rl.remaining then
        HttpOutcome.rejected429 { h with retryAfter := some rl.reset }
      else HttpOutcome.admittedNext h

/-- Whether the outcome is the 429 rejection. -/
def isRejected : HttpOutcome → Bool
  | HttpOutcome.rejected429 _ => true
  | _ => false

/-- Claim-side predicate: some enforced window's post-increment value
exceeds that window's limit (the rejection condition stated by the spec). -/
def someWindowExceeded (rl : RateLimit) (secVal hourVal monthVal : Int) : Prop :=
  (rl.second > 0 ∧ secVal > rl.second)
    ∨ (rl.hour > 0 ∧ hourVal > rl.hour)
    ∨ (rl.month > 0 ∧ monthVal > rl.month)

instance (rl : RateLimit) (a b c : Int) : Decidable (someWindowExceeded rl a b c) := by
  unfold someWindowExceeded; infer_instance

end Ratelimit


namespace Ratelimit

/-! ## The limits refresher (`updateRateLimits`, lines 505-614) and the
global tables (lines 52-74)

The Go globals `NoKeyRateLimit` and `FreeRatelimit` are pointers to
`RateLimit` records; line 58 (`var FreeRatelimit = NoKeyRateLimit`)
makes them aliases.  The heap of `RateLimit` records is modelled as a
list of records addressed by index, the two globals as indices into it,
and the three maps as association lists (`rateLimitsByUserId` and the
interning map `rateLimits` store heap indices, i.e. pointers). -/

/-- Row of the `api_keys` query (lines 522-529). -/
structure ApiKeyRow where
  userID : Int
  apiKey : String
  validUntil : Int
  changedAt : Int
  deriving Repr, DecidableEq

/-- Row of the `api_ratelimits` query (lines 534-543). -/
structure RateLimitRow where
  userID : Int
  second : Int
  hour : Int
  month : Int
  validUntil : Int
  changedAt : Int
  deriving Repr, DecidableEq

/-- Row of `DBGetCurrentApiProducts` (lines 890-897), quota part. -/
structure ApiProduct where
  name : String
  second : Int
  hour : Int
  month : Int
  deriving Repr, DecidableEq

/-- Go map lookup on an association list. -/
def alistLookup {α β : Type} [BEq α] (m : List (α × β)) (k : α) : Option β :=
  (m.find? (fun p => p.1 == k)).map (fun p => p.2)

/-- Go `delete(m, k)`. -/
def alistErase {α β : Type} [BEq α] (m : List (α × β)) (k : α) : List (α × β) :=
  m.filter (fun p => !(p.1 == k))

/-- Go `m[k] = v`. -/
def alistInsert {α β : Type} [BEq α] (m : List (α × β)) (k : α) (v : β) : List (α × β) :=
  (k, v) :: alistErase m k

/-- Dereference a heap pointer (a well-formed state never dangles; the
default is only to make the function total). -/
def heapGet (heap : List RateLimit) (p : Nat) : RateLimit :=
  (heap[p]?).getD ⟨0, 0, 0⟩

/-- The globals of the ratelimit package touched by `updateRateLimits`
(lines 52-74): the two aliased quota pointers, the three maps and the two
refresh watermarks. -/
structure RLGlobals where
  heap : List RateLimit
  noKeyRateLimit : Nat
  freeRatelimit : Nat
  userIdByApiKey : List (String × Int)
  rateLimitsByUserId : List (Int × Nat)
  rateLimits : List (String × Nat)
  lastUpdateKeys : Int
  lastUpdateRateLimits : Int
  deriving Repr, DecidableEq

/-- Startup state (lines 52-58, 63-64, 72-74): one shared `RateLimit`
record `{Second: 2, Hour: 500, Month: 0}` pointed to by both
`NoKeyRateLimit` and `FreeRatelimit`, empty maps, zero watermarks. -/
def initialGlobals : RLGlobals :=
  { heap := [⟨2, 500, 0⟩]
    noKeyRateLimit := 0
    freeRatelimit := 0
    userIdByApiKey := []
    rateLimitsByUserId := []
    rateLimits := []
    lastUpdateKeys := 0
    lastUpdateRateLimits := 0 }

/-- Products loop (lines 561-572): a row named `nokey` writes through the
`NoKeyRateLimit` pointer, a row named `free` writes through the
`FreeRatelimit` pointer; both ifs run for every row, in order. -/
def applyProducts (heap : List RateLimit) (noKeyRef freeRef : Nat)
    (ps : List ApiProduct) : List RateLimit :=
  ps.foldl
    (fun h p =>
      let h1 := if p.name = "nokey" then h.set noKeyRef ⟨p.second, p.hour, p.month⟩ else h
      if p.name = "free" then h1.set freeRef ⟨p.second, p.hour, p.month⟩ else h1)
    heap

/-- Keys loop (lines 574-583): track the max `changed_at`, evict expired
bindings, install the rest. -/
def applyApiKeys (m : List (String × Int)) (lastT now : Int) (rows : List ApiKeyRow) :
    List (String × Int) × Int :=
  rows.foldl
    (fun acc row =>
      let lastT' := if row.changedAt > acc.2 then row.changedAt else acc.2
      if row.validUntil < now then (alistErase acc.1 row.apiKey, lastT')
      else (alistInsert acc.1 row.apiKey row.userID, lastT'))
    (m, lastT)

/-- `fmt.Sprintf("%d/%d/%d", ...)` of line 593, the interning key. -/
def rlString (s h m : Int) : String :=
  toString s ++ "/" ++ toString h ++ "/" ++ toString m

/-- State threaded through the ratelimits loop (lines 585-604). -/
structure RlLoopState where
  byUserId : List (Int × Nat)
  intern : List (String × Nat)
  heap : List RateLimit
  lastT : Int
  deriving Repr, DecidableEq

/-- Ratelimits loop (lines 585-604): track the max `changed_at`, evict
expired bindings, otherwise intern the quota (allocating a fresh record
when the value is new) and bind the user to the shared record. -/
def applyRateLimitRows (st : RlLoopState) (now : Int) (rows : List RateLimitRow) :
    RlLoopState :=
  rows.foldl
    (fun st row =>
      let lastT' := if row.changedAt > st.lastT then row.changedAt else st.lastT
      if row.validUntil < now then
        { st with byUserId := alistErase st.byUserId row.userID, lastT := lastT' }
      else
        match alistLookup st.intern (rlString row.second row.hour row.month) with
        | some p =>
          { st with byUserId := alistInsert st.byUserId row.userID p, lastT := lastT' }
        | none =>
          { byUserId := alistInsert st.byUserId row.userID st.heap.length
            intern := alistInsert st.intern (rlString row.second row.hour row.month) st.heap.length
            heap := st.heap ++ [⟨row.second, row.hour, row.month⟩]
            lastT := lastT' })
    st

/-- `updateRateLimits` (lines 505-614).  The relational round-trips are
passed in as `Except` results: `Beginx` (line 516), the `api_keys` select
(line 529), the `api_ratelimits` select (line 543), `Commit` (line 548)
and `DBGetCurrentApiProducts` (line 553).  Returns the resulting globals
and the returned error, if any; every error return in the source happens
before any global is mutated. -/
def updateRateLimits (g : RLGlobals) (now : Int)
    (beginx : Except String Unit)
    (keysRes : Except String (List ApiKeyRow))
    (limitsRes : Except String (List RateLimitRow))
    (commit : Except String Unit)
    (productsRes : Except String (List ApiProduct)) : RLGlobals × Option String :=
  match beginx with
  | Except.error e => (g, some e)
  | Except.ok _ =>
    match keysRes with
    | Except.error e => (g, some ("error getting api_keys: " ++ e))
    | Except.ok dbApiKeys =>
      match limitsRes with
      | Except.error e => (g, some ("error getting api_ratelimits: " ++ e))
      | Except.ok dbRateLimits =>
        match commit with
        | Except.error e => (g, some e)
        | Except.ok _ =>
          match productsRes with
          | Except.error e => (g, some e)
          | Except.ok dbApiProducts =>
            let heap1 := applyProducts g.heap g.noKeyRateLimit g.freeRatelimit dbApiProducts
            let km := applyApiKeys g.userIdByApiKey g.lastUpdateKeys now dbApiKeys
            let st := applyRateLimitRows
              ⟨g.rateLimitsByUserId, g.rateLimits, heap1, g.lastUpdateRateLimits⟩
              now dbRateLimits
            ({ g with
                heap := st.heap
                userIdByApiKey := km.1
                rateLimitsByUserId := st.byUserId
                rateLimits := st.intern
                lastUpdateKeys := km.2
                lastUpdateRateLimits := st.lastT }, none)

/-- Quota resolution of `rateLimitRequest` (lines 654-670): unknown key →
`NoKeyRateLimit`; known key with an explicit user quota → that quota;
known key without one → `FreeRatelimit`. -/
def resolveQuota (g : RLGlobals) (key : String) : RateLimit :=
  match alistLookup g.userIdByApiKey key with
  | none => heapGet g.heap g.noKeyRateLimit
  | some uid =>
    match alistLookup g.rateLimitsByUserId uid with
    | some p => heapGet g.heap p
    | none => heapGet g.heap g.freeRatelimit

/-- Claim-side "last wins" fold: the value left in the shared record by a
product list, both reserved names writing the same aliased record. -/
def lastProductWins (old : RateLimit) (ps : List ApiProduct) : RateLimit :=
  ps.foldl
    (fun acc p =>
      if p.name = "nokey" ∨ p.name = "free" then ⟨p.second, p.hour, p.month⟩ else acc)
    old

/-! ## The stats scanner's deletion loop (`updateStats`, lines 436-449) -/

/-- Go slice expression `l[lo:hi]`: `none` models the out-of-range panic
(`lo ≤ hi ≤ len` violated). -/
def goSlice (l : List String) (lo hi : Nat) : Option (List String) :=
  if lo ≤ hi ∧ hi ≤ l.length then some ((l.drop lo).take (hi - lo)) else none

/-- The values taken by `j` in `for j := 0; j <= n; j += 500`. -/
def delBatchStarts (n : Nat) : List Nat :=
  (List.range (n / 500 + 1)).map (fun k => k * 500)

/-- Deletion sub-batching of `updateStats` (lines 436-449): guarded by
`len(keysToDelete) > 0`, the loop bounds `j` by `len(keys)` and caps
`delEnd` by `len(keysToDelete)`, then slices `keysToDelete[j:delEnd]`.
`none` models a panicking iteration. -/
def updateStatsDelete (keys keysToDelete : List String) : Option (List (List String)) :=
  if keysToDelete.length > 0 then
    (delBatchStarts keys.length).mapM
      (fun j =>
        let delEnd := if j + 500 > keysToDelete.length then keysToDelete.length else j + 500
        goSlice keysToDelete j delEnd)
  else some []

/-! ## Route derivation (`getRoute`, lines 801-808) -/

/-- A non-nil `*mux.Route` as consumed by `getRoute`: all that is used is
the result of `GetPathTemplate`, a template or an error. -/
structure MuxRoute where
  pathTemplate : Except String String
  deriving Repr

/-- Result of a Go call that can panic. -/
inductive GoResult (α : Type) where
  | ok (a : α)
  | panicked (msg : String)
  deriving Repr, DecidableEq

/-- `getRoute` (lines 801-808).  `mux.CurrentRoute` yields nil when the
request has no matched route (modelled by `none`); line 803 then calls
`GetPathTemplate` on the nil `*Route`, which dereferences nil — a
runtime panic, modelled by `GoResult.panicked`.  With a non-nil route the
code returns the template, or `"UNDEFINED"` when `GetPathTemplate`
errors. -/
def getRoute (currentRoute : Option MuxRoute) : GoResult String :=
  match currentRoute with
  | none => GoResult.panicked "runtime error: invalid memory address or nil pointer dereference"
  | some route =>
    match route.pathTemplate with
    | Except.error _ => GoResult.ok "UNDEFINED"
    | Except.ok tpl => GoResult.ok tpl

end Ratelimit

namespace Ratelimit

/-- Modelled from the spec: the published shared-store key grammar for the
per-second counter, `ratelimit:second:<bucket>:<uid-or-ip>` (spec §6),
with the caller's uid-or-ip identifier spliced in verbatim. -/
def specSecondKey (bucket uidOrIp : String) : String :=
  "ratelimit:second:" ++ (bucket ++ ":" ++ uidOrIp)

/-! # Theorems -/

/-- Two appended strings differ when their literal heads differ at a
position inside both heads. -/
theorem stringAppendNe {p q : String} (a b : String) (i : Nat)
    (hp : i < p.data.length) (hq : i < q.data.length)
    (hne : p.data[i]? ≠ q.data[i]?) : p ++ a ≠ q ++ b := by
  intro h
  apply hne
  have hd : p.data ++ a.data = q.data ++ b.data := by
    have h2 := congrArg String.data h
    rwa [String.data_append, String.data_append] at h2
  calc p.data[i]? = (p.data ++ a.data)[i]? := (List.getElem?_append_left hp).symm
    _ = (q.data ++ b.data)[i]? := by rw [hd]
    _ = q.data[i]? := List.getElem?_append_left hq

/-- The per-second counter key never collides with an hour counter key. -/
theorem secondKey_ne_hourKey (b1 : String) (u1 : Int) (y mo d hr : Nat) (b2 : String)
    (u2 : Int) : rateLimitSecondKey b1 u1 ≠ rateLimitHourKey y mo d hr b2 u2 := by
  unfold rateLimitSecondKey rateLimitHourKey
  exact stringAppendNe _ _ 10 (by decide) (by decide) (by decide)

/-- The per-second counter key never collides with a month counter key. -/
theorem secondKey_ne_monthKey (b1 : String) (u1 : Int) (y mo : Nat) (b2 : String)
    (u2 : Int) : rateLimitSecondKey b1 u1 ≠ rateLimitMonthKey y mo b2 u2 := by
  unfold rateLimitSecondKey rateLimitMonthKey
  exact stringAppendNe _ _ 10 (by decide) (by decide) (by decide)

/-- The per-second counter key never collides with a uid stats key. -/
theorem secondKey_ne_statsKeyUid (b1 : String) (u1 : Int) (y mo d hr : Nat) (u2 : Int)
    (route : String) : rateLimitSecondKey b1 u1 ≠ rateLimitStatsKeyUid y mo d hr u2 route := by
  unfold rateLimitSecondKey rateLimitStatsKeyUid
  exact stringAppendNe _ _ 11 (by decide) (by decide) (by decide)

/-- The per-second counter key never collides with a nokey stats key. -/
theorem secondKey_ne_statsKeyNoKey (b1 : String) (u1 : Int) (y mo d hr : Nat)
    (route : String) : rateLimitSecondKey b1 u1 ≠ rateLimitStatsKeyNoKey y mo d hr route := by
  unfold rateLimitSecondKey rateLimitStatsKeyNoKey
  exact stringAppendNe _ _ 11 (by decide) (by decide) (by decide)

/-- An hour counter key never collides with a month counter key. -/
theorem hourKey_ne_monthKey (y mo d hr : Nat) (b1 : String) (u1 : Int) (y2 mo2 : Nat)
    (b2 : String) (u2 : Int) :
    rateLimitHourKey y mo d hr b1 u1 ≠ rateLimitMonthKey y2 mo2 b2 u2 := by
  unfold rateLimitHourKey rateLimitMonthKey
  exact stringAppendNe _ _ 10 (by decide) (by decide) (by decide)

/-- An hour counter key never collides with a uid stats key. -/
theorem hourKey_ne_statsKeyUid (y mo d hr : Nat) (b1 : String) (u1 : Int)
    (y2 mo2 d2 hr2 : Nat) (u2 : Int) (route : String) :
    rateLimitHourKey y mo d hr b1 u1 ≠ rateLimitStatsKeyUid y2 mo2 d2 hr2 u2 route := by
  unfold rateLimitHourKey rateLimitStatsKeyUid
  exact stringAppendNe _ _ 10 (by decide) (by decide) (by decide)

/-- An hour counter key never collides with a nokey stats key. -/
theorem hourKey_ne_statsKeyNoKey (y mo d hr : Nat) (b1 : String) (u1 : Int)
    (y2 mo2 d2 hr2 : Nat) (route : String) :
    rateLimitHourKey y mo d hr b1 u1 ≠ rateLimitStatsKeyNoKey y2 mo2 d2 hr2 route := by
  unfold rateLimitHourKey rateLimitStatsKeyNoKey
  exact stringAppendNe _ _ 10 (by decide) (by decide) (by decide)

/-- A month counter key never collides with a uid stats key. -/
theorem monthKey_ne_statsKeyUid (y mo : Nat) (b1 : String) (u1 : Int)
    (y2 mo2 d2 hr2 : Nat) (u2 : Int) (route : String) :
    rateLimitMonthKey y mo b1 u1 ≠ rateLimitStatsKeyUid y2 mo2 d2 hr2 u2 route := by
  unfold rateLimitMonthKey rateLimitStatsKeyUid
  exact stringAppendNe _ _ 10 (by decide) (by decide) (by decide)

/-- A month counter key never collides with a nokey stats key. -/
theorem monthKey_ne_statsKeyNoKey (y mo : Nat) (b1 : String) (u1 : Int)
    (y2 mo2 d2 hr2 : Nat) (route : String) :
    rateLimitMonthKey y mo b1 u1 ≠ rateLimitStatsKeyNoKey y2 mo2 d2 hr2 route := by
  unfold rateLimitMonthKey rateLimitStatsKeyNoKey
  exact stringAppendNe _ _ 10 (by decide) (by decide) (by decide)

/-- An hour counter key never collides with either stats key variant. -/
theorem hourKey_ne_statsKey (y mo d hr : Nat) (b1 : String) (u1 : Int) (valid : Bool)
    (y2 mo2 d2 hr2 : Nat) (u2 : Int) (route : String) :
    rateLimitHourKey y mo d hr b1 u1 ≠ rateLimitStatsKey valid y2 mo2 d2 hr2 u2 route := by
  cases valid
  · exact hourKey_ne_statsKeyNoKey y mo d hr b1 u1 y2 mo2 d2 hr2 route
  · exact hourKey_ne_statsKeyUid y mo d hr b1 u1 y2 mo2 d2 hr2 u2 route

/-- A month counter key never collides with either stats key variant. -/
theorem monthKey_ne_statsKey (y mo : Nat) (b1 : String) (u1 : Int) (valid : Bool)
    (y2 mo2 d2 hr2 : Nat) (u2 : Int) (route : String) :
    rateLimitMonthKey y mo b1 u1 ≠ rateLimitStatsKey valid y2 mo2 d2 hr2 u2 route := by
  cases valid
  · exact monthKey_ne_statsKeyNoKey y mo b1 u1 y2 mo2 d2 hr2 route
  · exact monthKey_ne_statsKeyUid y mo b1 u1 y2 mo2 d2 hr2 u2 route

/-- The per-second counter key never collides with either stats key variant. -/
theorem secondKey_ne_statsKey (b1 : String) (u1 : Int) (valid : Bool)
    (y2 mo2 d2 hr2 : Nat) (u2 : Int) (route : String) :
    rateLimitSecondKey b1 u1 ≠ rateLimitStatsKey valid y2 mo2 d2 hr2 u2 route := by
  cases valid
  · exact secondKey_ne_statsKeyNoKey b1 u1 y2 mo2 d2 hr2 route
  · exact secondKey_ne_statsKeyUid b1 u1 y2 mo2 d2 hr2 u2 route

end Ratelimit

namespace Ratelimit

/-- C6: the per-second counter key written for an enforced second window
diverges from the published grammar `ratelimit:second:<bucket>:<uid-or-ip>`:
line 686 formats the `int64` user id with the `%s` verb, so for the
default bucket and the no-key user id -1 the key is the bad-verb string
`ratelimit:second:default:%!s(int64=-1)`, not the grammar form for any
identifier — in particular neither for the uid string `-1` nor for an
ip-derived identifier. -/
theorem secondKeyFormatDiverges :
    rateLimitSecondKey "default" (-1) = "ratelimit:second:default:%!s(int64=-1)"
    ∧ rateLimitSecondKey "default" (-1) ≠ specSecondKey "default" "-1"
    ∧ rateLimitSecondKey "default" (-1) ≠ specSecondKey "default" "ip_1.2.3.4" := by
  refine ⟨rfl, by decide, by decide⟩

set_option maxRecDepth 4000 in
/-- C7: the deletion sub-batching of `updateStats` is not in-bounds: with
a batch of 501 scanned keys of which exactly one is closed-hour, the
iteration at `j = 500` slices `keysToDelete[500:1]`, an out-of-range
slice (a Go panic, modelled by `none`). -/
theorem updateStatsDeleteOutOfRange :
    updateStatsDelete (List.replicate 501 "k") ["ratelimit:stats:2024-01-01-00:nokey:/x"]
      = none := by
  rfl

/-- C9 counterexample: for a request with no current route (a nil
`*mux.Route` from `mux.CurrentRoute`), `getRoute` does not return
`"UNDEFINED"` — line 803 dereferences the nil route and panics. -/
theorem getRouteNilRouteNotUndefined :
    getRoute none ≠ GoResult.ok "UNDEFINED"
    ∧ getRoute none
        = GoResult.panicked "runtime error: invalid memory address or nil pointer dereference" := by
  exact ⟨by decide, rfl⟩

/-- C9 (amended): when a current route exists but exposes no path
template (`GetPathTemplate` errors), `getRoute` returns the literal
`"UNDEFINED"`; when there is no current route at all, the nil-route
method call panics instead. -/
theorem getRouteUndefinedOnMissingTemplate (r : MuxRoute) (e : String)
    (h : r.pathTemplate = Except.error e) :
    getRoute (some r) = GoResult.ok "UNDEFINED"
    ∧ getRoute none
        = GoResult.panicked "runtime error: invalid memory address or nil pointer dereference" := by
  refine ⟨?_, rfl⟩
  simp only [getRoute]
  rw [h]

/-- Witness for C9's amended theorem at a concrete templateless route. -/
theorem getRouteUndefinedOnMissingTemplateWitness :
    (MuxRoute.mk (Except.error "mux: route doesn't have a path")).pathTemplate
        = Except.error "mux: route doesn't have a path"
    ∧ getRoute (some (MuxRoute.mk (Except.error "mux: route doesn't have a path")))
        = GoResult.ok "UNDEFINED" := by
  exact ⟨rfl, (getRouteUndefinedOnMissingTemplate _ _ rfl).1⟩

/-- C5: when charging fails (the redis pipeline returns an error,
including context cancellation), the middleware serves the request
downstream with no rate-limit headers set; and the middleware's only
possible outcomes are pass-through (with or without headers), the
fallback limiter, and the 429 rejection — no infrastructure error
surfaces as an HTTP error. -/
theorem chargeFailureFailsOpen :
    (∀ e : String, httpMiddleware true true (Except.error e) = HttpOutcome.nextNoHeaders)
    ∧ (∀ (sel hy : Bool) (charge : Except String RateLimitResultM),
        httpMiddleware sel hy charge = HttpOutcome.nextNoHeaders
        ∨ httpMiddleware sel hy charge = HttpOutcome.fallback
        ∨ (∃ h, httpMiddleware sel hy charge = HttpOutcome.rejected429 h)
        ∨ (∃ h, httpMiddleware sel hy charge = HttpOutcome.admittedNext h)) := by
  constructor
  · intro e
    rfl
  · intro sel hy charge
    cases sel
    · exact Or.inl rfl
    · cases hy
      · exact Or.inr (Or.inl rfl)
      · cases charge with
        | error e => exact Or.inl rfl
        | ok rl =>
          by_cases hw : rl.weight > rl.remaining
          · refine Or.inr (Or.inr (Or.inl
              ⟨{ setRateLimitHeaders rl with retryAfter := some rl.reset }, ?_⟩))
            simp [httpMiddleware, hw]
          · refine Or.inr (Or.inr (Or.inr ⟨setRateLimitHeaders rl, ?_⟩))
            simp [httpMiddleware, hw]

/-- C8: if a run of the limits refresher returns an error, the key-to-user
map, the user-to-quota map, the interning map, the shared quota records
and both refresh watermarks are left exactly as they were: every error
return in `updateRateLimits` precedes every mutation of the globals. -/
theorem updateRateLimitsErrorKeepsState (g : RLGlobals) (now : Int)
    (beginx : Except String Unit) (keysRes : Except String (List ApiKeyRow))
    (limitsRes : Except String (List RateLimitRow)) (commit : Except String Unit)
    (productsRes : Except String (List ApiProduct))
    (herr : (updateRateLimits g now beginx keysRes limitsRes commit productsRes).2.isSome
      = true) :
    (updateRateLimits g now beginx keysRes limitsRes commit productsRes).1 = g := by
  cases beginx with
  | error e => rfl
  | ok u =>
    cases keysRes with
    | error e => rfl
    | ok ks =>
      cases limitsRes with
      | error e => rfl
      | ok ls =>
        cases commit with
        | error e => rfl
        | ok u2 =>
          cases productsRes with
          | error e => rfl
          | ok ps => simp [updateRateLimits] at herr

/-- Witness for C8 at a failing `api_keys` select. -/
theorem updateRateLimitsErrorKeepsStateWitness :
    (updateRateLimits initialGlobals 0 (Except.ok ()) (Except.error "connection refused")
        (Except.ok []) (Except.ok ()) (Except.ok [])).2.isSome = true
    ∧ (updateRateLimits initialGlobals 0 (Except.ok ()) (Except.error "connection refused")
        (Except.ok []) (Except.ok ()) (Except.ok [])).1 = initialGlobals := by
  exact ⟨rfl, updateRateLimitsErrorKeepsState initialGlobals 0 (Except.ok ())
    (Except.error "connection refused") (Except.ok []) (Except.ok ()) (Except.ok []) rfl⟩

end Ratelimit

namespace Ratelimit

/-- Over-limit branch of a window block (lines 724-729 etc.). -/
theorem chargeStep_eq_of_exceed {limit val : Int} (reset0 : Int) (w : TimeWindow)
    (res : RateLimitResultM) (h1 : limit > 0) (h2 : val > limit) :
    chargeStep limit val reset0 w res
      = ({ res with limit := limit, remaining := 0, reset := reset0, window := w }, true) := by
  unfold chargeStep
  rw [if_pos h1, if_pos h2]

/-- Update branch of a window block (lines 730-735 etc.). -/
theorem chargeStep_eq_of_update {limit val : Int} (reset0 : Int) (w : TimeWindow)
    {res : RateLimitResultM} (h1 : limit > 0) (h2 : ¬(val > limit))
    (h3 : limit - val > res.limit) :
    chargeStep limit val reset0 w res
      = ({ res with limit := limit, remaining := limit - val, reset := reset0, window := w },
          false) := by
  unfold chargeStep
  rw [if_pos h1, if_neg h2, if_pos h3]

/-- Fall-through branch of a window block. -/
theorem chargeStep_eq_of_skip {limit val : Int} (reset0 : Int) (w : TimeWindow)
    {res : RateLimitResultM} (h1 : limit > 0) (h2 : ¬(val > limit))
    (h3 : ¬(limit - val > res.limit)) :
    chargeStep limit val reset0 w res = (res, false) := by
  unfold chargeStep
  rw [if_pos h1, if_neg h2, if_neg h3]

/-- Unenforced window: the block is not entered. -/
theorem chargeStep_eq_of_unenforced {limit : Int} (val reset0 : Int) (w : TimeWindow)
    (res : RateLimitResultM) (h1 : ¬(limit > 0)) :
    chargeStep limit val reset0 w res = (res, false) := by
  unfold chargeStep
  rw [if_neg h1]

/-- A window block never changes the request weight. -/
theorem chargeStep_weight (limit val reset0 : Int) (w : TimeWindow) (res : RateLimitResultM) :
    ((chargeStep limit val reset0 w res).1).weight = res.weight := by
  unfold chargeStep
  split_ifs <;> rfl

/-- A window block never changes the quota record. -/
theorem chargeStep_rateLimit (limit val reset0 : Int) (w : TimeWindow)
    (res : RateLimitResultM) :
    ((chargeStep limit val reset0 w res).1).rateLimit = res.rateLimit := by
  unfold chargeStep
  split_ifs <;> rfl

/-- A window block never changes the charged redis keys. -/
theorem chargeStep_redisKeys (limit val reset0 : Int) (w : TimeWindow)
    (res : RateLimitResultM) :
    ((chargeStep limit val reset0 w res).1).redisKeys = res.redisKeys := by
  unfold chargeStep
  split_ifs <;> rfl

/-- A window block never changes the stats key. -/
theorem chargeStep_redisStatsKey (limit val reset0 : Int) (w : TimeWindow)
    (res : RateLimitResultM) :
    ((chargeStep limit val reset0 w res).1).redisStatsKey = res.redisStatsKey := by
  unfold chargeStep
  split_ifs <;> rfl

/-- The decision chain never changes the request weight. -/
theorem rateLimitWindows_weight (rl : RateLimit) (sv hv mv tH tM : Int)
    (res0 : RateLimitResultM) :
    (rateLimitWindows rl sv hv mv tH tM res0).weight = res0.weight := by
  unfold rateLimitWindows
  dsimp only
  split_ifs <;> simp [chargeStep_weight]

/-- The decision chain never changes the quota record. -/
theorem rateLimitWindows_rateLimit (rl : RateLimit) (sv hv mv tH tM : Int)
    (res0 : RateLimitResultM) :
    (rateLimitWindows rl sv hv mv tH tM res0).rateLimit = res0.rateLimit := by
  unfold rateLimitWindows
  dsimp only
  split_ifs <;> simp [chargeStep_rateLimit]

/-- The decision chain never changes the charged redis keys. -/
theorem rateLimitWindows_redisKeys (rl : RateLimit) (sv hv mv tH tM : Int)
    (res0 : RateLimitResultM) :
    (rateLimitWindows rl sv hv mv tH tM res0).redisKeys = res0.redisKeys := by
  unfold rateLimitWindows
  dsimp only
  split_ifs <;> simp [chargeStep_redisKeys]

/-- The decision chain never changes the stats key. -/
theorem rateLimitWindows_redisStatsKey (rl : RateLimit) (sv hv mv tH tM : Int)
    (res0 : RateLimitResultM) :
    (rateLimitWindows rl sv hv mv tH tM res0).redisStatsKey = res0.redisStatsKey := by
  unfold rateLimitWindows
  dsimp only
  split_ifs <;> simp [chargeStep_redisStatsKey]

/-- The result of `rateLimitRequest` carries the request weight. -/
theorem rateLimitRequest_weight (rl : RateLimit) (weight : Int) (bucket : String) (uid : Int)
    (isValidKey : Bool) (route : String) (y mo d hr : Nat)
    (secOld hourOld monthOld tHour tMonth hourExp monthExp : Int) :
    (rateLimitRequest rl weight bucket uid isValidKey route y mo d hr secOld hourOld
        monthOld tHour tMonth hourExp monthExp).weight = weight := by
  unfold rateLimitRequest
  rw [rateLimitWindows_weight]

/-- The result of `rateLimitRequest` carries the resolved quota record. -/
theorem rateLimitRequest_rateLimit (rl : RateLimit) (weight : Int) (bucket : String)
    (uid : Int) (isValidKey : Bool) (route : String) (y mo d hr : Nat)
    (secOld hourOld monthOld tHour tMonth hourExp monthExp : Int) :
    (rateLimitRequest rl weight bucket uid isValidKey route y mo d hr secOld hourOld
        monthOld tHour tMonth hourExp monthExp).rateLimit = rl := by
  unfold rateLimitRequest
  rw [rateLimitWindows_rateLimit]

/-- The redis keys recorded for refund: the hour and month counter keys of
the enforced windows, in that order (lines 708 and 714). -/
theorem rateLimitRequest_redisKeys (rl : RateLimit) (weight : Int) (bucket : String)
    (uid : Int) (isValidKey : Bool) (route : String) (y mo d hr : Nat)
    (secOld hourOld monthOld tHour tMonth hourExp monthExp : Int) :
    (rateLimitRequest rl weight bucket uid isValidKey route y mo d hr secOld hourOld
        monthOld tHour tMonth hourExp monthExp).redisKeys
      = (if rl.hour > 0 then [⟨rateLimitHourKey y mo d hr bucket uid, hourExp⟩] else [])
          ++ (if rl.month > 0 then [⟨rateLimitMonthKey y mo bucket uid, monthExp⟩] else []) := by
  unfold rateLimitRequest
  rw [rateLimitWindows_redisKeys]

/-- The stats key recorded by `rateLimitRequest` (lines 690-694). -/
theorem rateLimitRequest_redisStatsKey (rl : RateLimit) (weight : Int) (bucket : String)
    (uid : Int) (isValidKey : Bool) (route : String) (y mo d hr : Nat)
    (secOld hourOld monthOld tHour tMonth hourExp monthExp : Int) :
    (rateLimitRequest rl weight bucket uid isValidKey route y mo d hr secOld hourOld
        monthOld tHour tMonth hourExp monthExp).redisStatsKey
      = rateLimitStatsKey isValidKey y mo d hr uid route := by
  unfold rateLimitRequest
  rw [rateLimitWindows_redisStatsKey]

/-- Line 265: the middleware rejects exactly when the weight exceeds the
reported remaining. -/
theorem isRejected_iff (res : RateLimitResultM) :
    isRejected (httpMiddleware true true (Except.ok res)) = true
      ↔ res.remaining < res.weight := by
  by_cases hw : res.weight > res.remaining <;>
    simp [httpMiddleware, isRejected, hw]

end Ratelimit

namespace Ratelimit

/-- A window block does not early-return unless its window is enforced
and over the limit. -/
theorem chargeStep_snd_false (limit val reset0 : Int) (w : TimeWindow)
    (res : RateLimitResultM) (h : ¬(limit > 0 ∧ val > limit)) :
    (chargeStep limit val reset0 w res).2 = false := by
  unfold chargeStep
  split_ifs with h1 h2 h3 <;> simp_all

/-- Whenever some enforced window's post-increment value exceeds its
limit, the decision chain reports remaining 0 (the first such window in
second → hour → month order fills the result and returns). -/
theorem rateLimitWindows_remaining_of_exceeded (rl : RateLimit) (sv hv mv tH tM : Int)
    (res0 : RateLimitResultM) (h : someWindowExceeded rl sv hv mv) :
    (rateLimitWindows rl sv hv mv tH tM res0).remaining = 0 := by
  unfold rateLimitWindows
  dsimp only
  by_cases cs : rl.second > 0 ∧ sv > rl.second
  · rw [chargeStep_eq_of_exceed _ _ _ cs.1 cs.2]
    simp
  · rw [chargeStep_snd_false rl.second sv 1 SecondTimeWindow res0 cs]
    simp only [Bool.false_eq_true, if_false]
    by_cases ch : rl.hour > 0 ∧ hv > rl.hour
    · rw [chargeStep_eq_of_exceed _ _ _ ch.1 ch.2]
      simp
    · rw [chargeStep_snd_false rl.hour hv tH HourTimeWindow _ ch]
      simp only [Bool.false_eq_true, if_false]
      have cm : rl.month > 0 ∧ mv > rl.month := by
        rcases h with h | h | h
        · exact absurd h cs
        · exact absurd h ch
        · exact h
      rw [chargeStep_eq_of_exceed _ _ _ cm.1 cm.2]

/-- One window block preserves the result invariant
`0 ≤ limit ∧ 0 ≤ remaining ∧ remaining ≤ limit ∧ 0 ≤ reset`. -/
theorem chargeStep_inv (limit val reset0 : Int) (w : TimeWindow) (res : RateLimitResultM)
    (hval : 0 ≤ val) (hreset : 0 ≤ reset0)
    (h : 0 ≤ res.limit ∧ 0 ≤ res.remaining ∧ res.remaining ≤ res.limit ∧ 0 ≤ res.reset) :
    0 ≤ ((chargeStep limit val reset0 w res).1).limit
    ∧ 0 ≤ ((chargeStep limit val reset0 w res).1).remaining
    ∧ ((chargeStep limit val reset0 w res).1).remaining
        ≤ ((chargeStep limit val reset0 w res).1).limit
    ∧ 0 ≤ ((chargeStep limit val reset0 w res).1).reset := by
  unfold chargeStep
  split_ifs with h1 h2 h3 <;> simp_all <;> omega

/-- The decision chain preserves the result invariant when all
post-increment values and reset durations are non-negative. -/
theorem rateLimitWindows_inv (rl : RateLimit) (sv hv mv tH tM : Int)
    (res0 : RateLimitResultM)
    (hsv : 0 ≤ sv) (hhv : 0 ≤ hv) (hmv : 0 ≤ mv) (htH : 0 ≤ tH) (htM : 0 ≤ tM)
    (h0 : 0 ≤ res0.limit ∧ 0 ≤ res0.remaining ∧ res0.remaining ≤ res0.limit
      ∧ 0 ≤ res0.reset) :
    0 ≤ (rateLimitWindows rl sv hv mv tH tM res0).limit
    ∧ 0 ≤ (rateLimitWindows rl sv hv mv tH tM res0).remaining
    ∧ (rateLimitWindows rl sv hv mv tH tM res0).remaining
        ≤ (rateLimitWindows rl sv hv mv tH tM res0).limit
    ∧ 0 ≤ (rateLimitWindows rl sv hv mv tH tM res0).reset := by
  unfold rateLimitWindows
  dsimp only
  have i1 := chargeStep_inv rl.second sv 1 SecondTimeWindow res0 hsv (by norm_num) h0
  have i2 := chargeStep_inv rl.hour hv tH HourTimeWindow
    (chargeStep rl.second sv 1 SecondTimeWindow res0).1 hhv htH i1
  have i3 := chargeStep_inv rl.month mv tM MonthTimeWindow
    (chargeStep rl.hour hv tH HourTimeWindow
      (chargeStep rl.second sv 1 SecondTimeWindow res0).1).1 hmv htM i2
  split_ifs with c1 c2
  · exact i1
  · exact i2
  · exact i3

end Ratelimit

namespace Ratelimit

/-- C1 counterexample: a weight-1 request under quota (1, 0, 0) with the
second counter previously at 0 is rejected with 429 (the middleware's
`Weight > Remaining` test fires because no window updated the zero
`Remaining`), yet no enforced window's post-increment value (1) exceeds
its limit (1) — refuting "rejected iff some window exceeded". -/
theorem rejectionWithoutExceededWindow :
    isRejected (httpMiddleware true true (Except.ok
        (rateLimitRequest ⟨1, 0, 0⟩ 1 "default" (-1) false "/api/v1/foo" 2024 1 2 3
          0 0 0 1 1 7200 500000))) = true
    ∧ ¬ someWindowExceeded ⟨1, 0, 0⟩ (0 + 1) (0 + 1) (0 + 1) := by
  exact ⟨rfl, by decide⟩

/-- C1 (amended): a charged request is rejected with 429 iff its weight
exceeds the computed `Remaining`; exceeding any enforced window forces
`Remaining = 0`, so every positive-weight request over a window limit is
rejected — but rejection can also occur with no window exceeded. -/
theorem rejectIffWeightExceedsRemaining (rl : RateLimit) (weight : Int) (bucket : String)
    (uid : Int) (isValidKey : Bool) (route : String) (y mo d hr : Nat)
    (secOld hourOld monthOld tHour tMonth hourExp monthExp : Int) :
    (isRejected (httpMiddleware true true (Except.ok (rateLimitRequest rl weight bucket uid
          isValidKey route y mo d hr secOld hourOld monthOld tHour tMonth hourExp
          monthExp))) = true
      ↔ (rateLimitRequest rl weight bucket uid isValidKey route y mo d hr secOld hourOld
          monthOld tHour tMonth hourExp monthExp).remaining < weight)
    ∧ (someWindowExceeded rl (secOld + weight) (hourOld + weight) (monthOld + weight) →
        1 ≤ weight →
        isRejected (httpMiddleware true true (Except.ok (rateLimitRequest rl weight bucket uid
          isValidKey route y mo d hr secOld hourOld monthOld tHour tMonth hourExp
          monthExp))) = true) := by
  have hiff := isRejected_iff (rateLimitRequest rl weight bucket uid isValidKey route
    y mo d hr secOld hourOld monthOld tHour tMonth hourExp monthExp)
  rw [rateLimitRequest_weight] at hiff
  constructor
  · exact hiff
  · intro hex hw
    rw [hiff]
    have h0 : (rateLimitRequest rl weight bucket uid isValidKey route y mo d hr secOld
        hourOld monthOld tHour tMonth hourExp monthExp).remaining = 0 := by
      unfold rateLimitRequest
      exact rateLimitWindows_remaining_of_exceeded rl (secOld + weight) (hourOld + weight)
        (monthOld + weight) tHour tMonth _ hex
    rw [h0]
    omega

/-- Witness for C1's amended theorem: third weight-1 request in the same
second under quota (2, 500, 0) — the second window is exceeded (3 > 2)
and the request is rejected. -/
theorem rejectIffWeightExceedsRemainingWitness :
    someWindowExceeded ⟨2, 500, 0⟩ (2 + 1) (0 + 1) (0 + 1)
    ∧ isRejected (httpMiddleware true true (Except.ok
        (rateLimitRequest ⟨2, 500, 0⟩ 1 "default" (-1) false "/api/v1/foo" 2024 1 2 3
          2 0 0 1 3599 7200 500000))) = true := by
  exact ⟨by decide,
    (rejectIffWeightExceedsRemaining ⟨2, 500, 0⟩ 1 "default" (-1) false "/api/v1/foo"
      2024 1 2 3 2 0 0 1 3599 7200 500000).2 (by decide) (by decide)⟩

end Ratelimit

namespace Ratelimit

/-- C2 counterexample: for a weight-1 request under quota (10, 100, 1000)
with all three counters previously at zero, the response reports the
month window with limit 1000 and remaining 999 — not the second window's
(limit 10, remaining 9) required by the claim, and not the smallest
post-charge remaining. -/
theorem tightestWindowNotReported :
    (rateLimitRequest ⟨10, 100, 1000⟩ 1 "default" (-1) false "/api/v1/foo" 2024 1 2 3
        0 0 0 3599 2591999 7200 500000).limit = 1000
    ∧ (rateLimitRequest ⟨10, 100, 1000⟩ 1 "default" (-1) false "/api/v1/foo" 2024 1 2 3
        0 0 0 3599 2591999 7200 500000).remaining = 999
    ∧ (rateLimitRequest ⟨10, 100, 1000⟩ 1 "default" (-1) false "/api/v1/foo" 2024 1 2 3
        0 0 0 3599 2591999 7200 500000).window = MonthTimeWindow
    ∧ ¬((rateLimitRequest ⟨10, 100, 1000⟩ 1 "default" (-1) false "/api/v1/foo" 2024 1 2 3
        0 0 0 3599 2591999 7200 500000).limit = 10
      ∧ (rateLimitRequest ⟨10, 100, 1000⟩ 1 "default" (-1) false "/api/v1/foo" 2024 1 2 3
        0 0 0 3599 2591999 7200 500000).remaining = 9) := by
  refine ⟨rfl, rfl, rfl, by decide⟩

/-- C2 (amended): each window block overwrites the reported quadruple iff
its remaining exceeds the limit recorded so far (line 730 compares
against `res.Limit`, not against the recorded remaining), so when every
enforced window is under its limit and each successive window's remaining
exceeds the previous window's limit, the *last* (month) window is
reported — the loosest-capped window, not the tightest. -/
theorem lastWindowAboveRecordedLimitReported (rl : RateLimit) (weight : Int)
    (bucket : String) (uid : Int) (isValidKey : Bool) (route : String) (y mo d hr : Nat)
    (secOld hourOld monthOld tHour tMonth hourExp monthExp : Int)
    (hs : rl.second > 0) (hh : rl.hour > 0) (hm : rl.month > 0)
    (hns : ¬(secOld + weight > rl.second))
    (hnh : ¬(hourOld + weight > rl.hour))
    (hnm : ¬(monthOld + weight > rl.month))
    (hrs : rl.second - (secOld + weight) > 0)
    (hrh : rl.hour - (hourOld + weight) > rl.second)
    (hrm : rl.month - (monthOld + weight) > rl.hour) :
    (rateLimitRequest rl weight bucket uid isValidKey route y mo d hr secOld hourOld
        monthOld tHour tMonth hourExp monthExp).limit = rl.month
    ∧ (rateLimitRequest rl weight bucket uid isValidKey route y mo d hr secOld hourOld
        monthOld tHour tMonth hourExp monthExp).remaining = rl.month - (monthOld + weight)
    ∧ (rateLimitRequest rl weight bucket uid isValidKey route y mo d hr secOld hourOld
        monthOld tHour tMonth hourExp monthExp).reset = tMonth
    ∧ (rateLimitRequest rl weight bucket uid isValidKey route y mo d hr secOld hourOld
        monthOld tHour tMonth hourExp monthExp).window = MonthTimeWindow := by
  unfold rateLimitRequest rateLimitWindows
  dsimp only
  rw [chargeStep_eq_of_update 1 SecondTimeWindow hs hns (by simpa using hrs)]
  dsimp only
  rw [chargeStep_eq_of_update tHour HourTimeWindow hh hnh (by simpa using hrh)]
  dsimp only
  rw [chargeStep_eq_of_update tMonth MonthTimeWindow hm hnm (by simpa using hrm)]
  exact ⟨rfl, rfl, rfl, rfl⟩

/-- Witness for C2's amended theorem at quota (10, 100, 1000), weight 1,
counters at zero: the month window (1000, 999) is reported. -/
theorem lastWindowAboveRecordedLimitReportedWitness :
    (rateLimitRequest ⟨10, 100, 1000⟩ 1 "default" (-1) false "/api/v1/foo" 2024 1 2 3
        0 0 0 3599 2591999 7200 500000).limit = (⟨10, 100, 1000⟩ : RateLimit).month
    ∧ (rateLimitRequest ⟨10, 100, 1000⟩ 1 "default" (-1) false "/api/v1/foo" 2024 1 2 3
        0 0 0 3599 2591999 7200 500000).remaining
      = (⟨10, 100, 1000⟩ : RateLimit).month - (0 + 1)
    ∧ (rateLimitRequest ⟨10, 100, 1000⟩ 1 "default" (-1) false "/api/v1/foo" 2024 1 2 3
        0 0 0 3599 2591999 7200 500000).reset = 2591999
    ∧ (rateLimitRequest ⟨10, 100, 1000⟩ 1 "default" (-1) false "/api/v1/foo" 2024 1 2 3
        0 0 0 3599 2591999 7200 500000).window = MonthTimeWindow := by
  exact lastWindowAboveRecordedLimitReported ⟨10, 100, 1000⟩ 1 "default" (-1) false
    "/api/v1/foo" 2024 1 2 3 0 0 0 3599 2591999 7200 500000
    (by decide) (by decide) (by decide) (by decide) (by decide) (by decide)
    (by decide) (by decide) (by decide)

end Ratelimit

namespace Ratelimit

/-- Invariant of the reported quota values for non-negative weight, prior
counters and reset durations. -/
theorem rateLimitRequest_inv (rl : RateLimit) (weight : Int) (bucket : String) (uid : Int)
    (isValidKey : Bool) (route : String) (y mo d hr : Nat)
    (secOld hourOld monthOld tHour tMonth hourExp monthExp : Int)
    (hw : 0 ≤ weight) (h1 : 0 ≤ secOld) (h2 : 0 ≤ hourOld) (h3 : 0 ≤ monthOld)
    (h4 : 0 ≤ tHour) (h5 : 0 ≤ tMonth) :
    0 ≤ (rateLimitRequest rl weight bucket uid isValidKey route y mo d hr secOld hourOld
        monthOld tHour tMonth hourExp monthExp).limit
    ∧ 0 ≤ (rateLimitRequest rl weight bucket uid isValidKey route y mo d hr secOld hourOld
        monthOld tHour tMonth hourExp monthExp).remaining
    ∧ (rateLimitRequest rl weight bucket uid isValidKey route y mo d hr secOld hourOld
        monthOld tHour tMonth hourExp monthExp).remaining
      ≤ (rateLimitRequest rl weight bucket uid isValidKey route y mo d hr secOld hourOld
        monthOld tHour tMonth hourExp monthExp).limit
    ∧ 0 ≤ (rateLimitRequest rl weight bucket uid isValidKey route y mo d hr secOld hourOld
        monthOld tHour tMonth hourExp monthExp).reset := by
  unfold rateLimitRequest
  dsimp only
  apply rateLimitWindows_inv
  · exact add_nonneg h1 hw
  · exact add_nonneg h2 hw
  · exact add_nonneg h3 hw
  · exact h4
  · exact h5
  · refine ⟨?_, ?_, ?_, ?_⟩ <;> norm_num

/-- C4 counterexample: a weight-6 request under quota (10, 0, 0) with the
second counter previously at 0 is rejected with 429 (weight 6 > remaining
4) while the reported `Remaining` is 4, not 0 — refuting "on rejection
Remaining equals 0". -/
theorem rejectedWithNonzeroRemaining :
    isRejected (httpMiddleware true true (Except.ok
        (rateLimitRequest ⟨10, 0, 0⟩ 6 "default" (-1) false "/api/v1/foo" 2024 1 2 3
          0 0 0 1 1 7200 500000))) = true
    ∧ (rateLimitRequest ⟨10, 0, 0⟩ 6 "default" (-1) false "/api/v1/foo" 2024 1 2 3
        0 0 0 1 1 7200 500000).remaining = 4
    ∧ ¬((rateLimitRequest ⟨10, 0, 0⟩ 6 "default" (-1) false "/api/v1/foo" 2024 1 2 3
        0 0 0 1 1 7200 500000).remaining = 0) := by
  refine ⟨rfl, rfl, by decide⟩

/-- C4 (amended): for non-negative weight, prior counter values and reset
durations, the reported values satisfy `Remaining ≤ Limit`,
`0 ≤ Remaining` and `Reset ≥ 0`; on a 429 rejection `Remaining < Weight`
(not necessarily 0), and for weight-1 requests rejection does coincide
with `Remaining = 0`. -/
theorem reportedQuotaInvariant (rl : RateLimit) (weight : Int) (bucket : String)
    (uid : Int) (isValidKey : Bool) (route : String) (y mo d hr : Nat)
    (secOld hourOld monthOld tHour tMonth hourExp monthExp : Int)
    (hw : 0 ≤ weight) (h1 : 0 ≤ secOld) (h2 : 0 ≤ hourOld) (h3 : 0 ≤ monthOld)
    (h4 : 0 ≤ tHour) (h5 : 0 ≤ tMonth) :
    (rateLimitRequest rl weight bucket uid isValidKey route y mo d hr secOld hourOld
        monthOld tHour tMonth hourExp monthExp).remaining
      ≤ (rateLimitRequest rl weight bucket uid isValidKey route y mo d hr secOld hourOld
        monthOld tHour tMonth hourExp monthExp).limit
    ∧ 0 ≤ (rateLimitRequest rl weight bucket uid isValidKey route y mo d hr secOld hourOld
        monthOld tHour tMonth hourExp monthExp).reset
    ∧ (isRejected (httpMiddleware true true (Except.ok (rateLimitRequest rl weight bucket
          uid isValidKey route y mo d hr secOld hourOld monthOld tHour tMonth hourExp
          monthExp))) = true
        → (rateLimitRequest rl weight bucket uid isValidKey route y mo d hr secOld hourOld
          monthOld tHour tMonth hourExp monthExp).remaining < weight)
    ∧ (weight = 1 →
        (isRejected (httpMiddleware true true (Except.ok (rateLimitRequest rl weight bucket
            uid isValidKey route y mo d hr secOld hourOld monthOld tHour tMonth hourExp
            monthExp))) = true
          ↔ (rateLimitRequest rl weight bucket uid isValidKey route y mo d hr secOld
            hourOld monthOld tHour tMonth hourExp monthExp).remaining = 0)) := by
  have hi := rateLimitRequest_inv rl weight bucket uid isValidKey route y mo d hr secOld
    hourOld monthOld tHour tMonth hourExp monthExp hw h1 h2 h3 h4 h5
  have hiff := isRejected_iff (rateLimitRequest rl weight bucket uid isValidKey route
    y mo d hr secOld hourOld monthOld tHour tMonth hourExp monthExp)
  rw [rateLimitRequest_weight] at hiff
  refine ⟨hi.2.2.1, hi.2.2.2, ?_, ?_⟩
  · intro hr
    exact hiff.mp hr
  · intro hw1
    subst hw1
    rw [hiff]
    have h2r := hi.2.1
    omega

/-- Witness for C4's amended theorem: second weight-1 request of the
second under quota (2, 500, 0); the request is admitted and the reported
values respect the invariant. -/
theorem reportedQuotaInvariantWitness :
    (rateLimitRequest ⟨2, 500, 0⟩ 1 "default" (-1) false "/api/v1/foo" 2024 1 2 3
        1 1 0 1 3599 7200 500000).remaining
      ≤ (rateLimitRequest ⟨2, 500, 0⟩ 1 "default" (-1) false "/api/v1/foo" 2024 1 2 3
        1 1 0 1 3599 7200 500000).limit
    ∧ 0 ≤ (rateLimitRequest ⟨2, 500, 0⟩ 1 "default" (-1) false "/api/v1/foo" 2024 1 2 3
        1 1 0 1 3599 7200 500000).reset := by
  have h := reportedQuotaInvariant ⟨2, 500, 0⟩ 1 "default" (-1) false "/api/v1/foo"
    2024 1 2 3 1 1 0 1 3599 7200 500000
    (by decide) (by decide) (by decide) (by decide) (by decide) (by decide)
  exact ⟨h.1, h.2.1⟩

end Ratelimit

namespace Ratelimit

/-- `netDelta` distributes over command-list concatenation. -/
theorem netDelta_append (a b : List RedisCmd) (k : String) :
    netDelta (a ++ b) k = netDelta a k + netDelta b k := by
  simp [netDelta]

/-- Every charged key gets its refund `DecrBy` and defensive `ExpireAt`
in the reconciliation pipeline. -/
theorem postRateLimit_mem (ks : List RedisKey) (stk : String) (w status : Int)
    (hstatus : status ≠ 200) (k : RedisKey) (hk : k ∈ ks) :
    RedisCmd.decrBy k.key w ∈ postRateLimit ks stk w status
    ∧ RedisCmd.expireAt k.key k.expireAt ∈ postRateLimit ks stk w status := by
  unfold postRateLimit
  rw [if_neg hstatus]
  constructor
  · exact List.mem_append_left _ (List.mem_flatMap.mpr ⟨k, hk, by simp⟩)
  · exact List.mem_append_left _ (List.mem_flatMap.mpr ⟨k, hk, by simp⟩)

/-- The reconciliation pipeline decrements the stats key by 1. -/
theorem postRateLimit_stats_mem (ks : List RedisKey) (stk : String) (w status : Int)
    (hstatus : status ≠ 200) :
    RedisCmd.decrBy stk 1 ∈ postRateLimit ks stk w status := by
  unfold postRateLimit
  rw [if_neg hstatus]
  simp

/-- C3: for a charged request whose observed status is not 200, the
reconciliation pipeline issues `decrby(weight)` and re-applies the expiry
for every charged hour/month counter key and decrements the stats key by
1; consequently the net delta of charge plus refund is 0 on the hour and
month counter keys and on the stats key; no command ever decrements the
per-second counter key; and with status 200 the reconciliation issues no
command at all. -/
theorem nonOkRefundNetZero (rl : RateLimit) (weight : Int) (bucket : String) (uid : Int)
    (isValidKey : Bool) (route : String) (y mo d hr : Nat)
    (secOld hourOld monthOld tHour tMonth hourExp monthExp : Int) (status : Int)
    (hstatus : status ≠ 200) :
    (∀ k ∈ (rateLimitRequest rl weight bucket uid isValidKey route y mo d hr secOld
        hourOld monthOld tHour tMonth hourExp monthExp).redisKeys,
      RedisCmd.decrBy k.key weight ∈ postRateLimit (rateLimitRequest rl weight bucket uid
          isValidKey route y mo d hr secOld hourOld monthOld tHour tMonth hourExp
          monthExp).redisKeys (rateLimitStatsKey isValidKey y mo d hr uid route) weight status
      ∧ RedisCmd.expireAt k.key k.expireAt ∈ postRateLimit (rateLimitRequest rl weight
          bucket uid isValidKey route y mo d hr secOld hourOld monthOld tHour tMonth
          hourExp monthExp).redisKeys (rateLimitStatsKey isValidKey y mo d hr uid route)
          weight status)
    ∧ RedisCmd.decrBy (rateLimitStatsKey isValidKey y mo d hr uid route) 1
        ∈ postRateLimit (rateLimitRequest rl weight bucket uid isValidKey route y mo d hr
          secOld hourOld monthOld tHour tMonth hourExp monthExp).redisKeys
          (rateLimitStatsKey isValidKey y mo d hr uid route) weight status
    ∧ (rl.hour > 0 →
        netDelta (rateLimitChargeCommands rl weight bucket uid isValidKey route y mo d hr
            hourExp monthExp
          ++ postRateLimit (rateLimitRequest rl weight bucket uid isValidKey route y mo d hr
            secOld hourOld monthOld tHour tMonth hourExp monthExp).redisKeys
            (rateLimitStatsKey isValidKey y mo d hr uid route) weight status)
          (rateLimitHourKey y mo d hr bucket uid) = 0)
    ∧ (rl.month > 0 →
        netDelta (rateLimitChargeCommands rl weight bucket uid isValidKey route y mo d hr
            hourExp monthExp
          ++ postRateLimit (rateLimitRequest rl weight bucket uid isValidKey route y mo d hr
            secOld hourOld monthOld tHour tMonth hourExp monthExp).redisKeys
            (rateLimitStatsKey isValidKey y mo d hr uid route) weight status)
          (rateLimitMonthKey y mo bucket uid) = 0)
    ∧ netDelta (rateLimitChargeCommands rl weight bucket uid isValidKey route y mo d hr
          hourExp monthExp
        ++ postRateLimit (rateLimitRequest rl weight bucket uid isValidKey route y mo d hr
          secOld hourOld monthOld tHour tMonth hourExp monthExp).redisKeys
          (rateLimitStatsKey isValidKey y mo d hr uid route) weight status)
        (rateLimitStatsKey isValidKey y mo d hr uid route) = 0
    ∧ (∀ v : Int, RedisCmd.decrBy (rateLimitSecondKey bucket uid) v
        ∉ rateLimitChargeCommands rl weight bucket uid isValidKey route y mo d hr hourExp
            monthExp
          ++ postRateLimit (rateLimitRequest rl weight bucket uid isValidKey route y mo d hr
            secOld hourOld monthOld tHour tMonth hourExp monthExp).redisKeys
            (rateLimitStatsKey isValidKey y mo d hr uid route) weight status)
    ∧ postRateLimit (rateLimitRequest rl weight bucket uid isValidKey route y mo d hr
        secOld hourOld monthOld tHour tMonth hourExp monthExp).redisKeys
        (rateLimitStatsKey isValidKey y mo d hr uid route) weight 200 = [] := by
  have n_sh := secondKey_ne_hourKey bucket uid y mo d hr bucket uid
  have n_sm := secondKey_ne_monthKey bucket uid y mo bucket uid
  have n_sst := secondKey_ne_statsKey bucket uid isValidKey y mo d hr uid route
  have n_hm := hourKey_ne_monthKey y mo d hr bucket uid y mo bucket uid
  have n_hst := hourKey_ne_statsKey y mo d hr bucket uid isValidKey y mo d hr uid route
  have n_mst := monthKey_ne_statsKey y mo bucket uid isValidKey y mo d hr uid route
  have n_hm' := n_hm.symm
  have n_hst' := n_hst.symm
  have n_mst' := n_mst.symm
  have n_sh' := n_sh.symm
  have n_sm' := n_sm.symm
  have n_sst' := n_sst.symm
  refine ⟨?_, ?_, ?_, ?_, ?_, ?_, ?_⟩
  · intro k hk
    exact postRateLimit_mem _ _ _ _ hstatus k hk
  · exact postRateLimit_stats_mem _ _ _ _ hstatus
  · intro hh2
    rw [rateLimitRequest_redisKeys]
    unfold postRateLimit rateLimitChargeCommands
    rw [if_neg hstatus]
    by_cases hs2 : rl.second > 0 <;> by_cases hm2 : rl.month > 0 <;>
      simp [netDelta, cmdDelta, hh2, hs2, hm2, n_sh, n_sm, n_sst, n_hm, n_hst, n_mst,
        n_hm', n_hst', n_mst', n_sh', n_sm', n_sst']
  · intro hm2
    rw [rateLimitRequest_redisKeys]
    unfold postRateLimit rateLimitChargeCommands
    rw [if_neg hstatus]
    by_cases hs2 : rl.second > 0 <;> by_cases hh2 : rl.hour > 0 <;>
      simp [netDelta, cmdDelta, hm2, hs2, hh2, n_sh, n_sm, n_sst, n_hm, n_hst, n_mst,
        n_hm', n_hst', n_mst', n_sh', n_sm', n_sst']
  · rw [rateLimitRequest_redisKeys]
    unfold postRateLimit rateLimitChargeCommands
    rw [if_neg hstatus]
    by_cases hs2 : rl.second > 0 <;> by_cases hh2 : rl.hour > 0 <;>
      by_cases hm2 : rl.month > 0 <;>
      simp [netDelta, cmdDelta, hs2, hh2, hm2, n_sh, n_sm, n_sst, n_hm, n_hst, n_mst,
        n_hm', n_hst', n_mst', n_sh', n_sm', n_sst']
  · intro v
    rw [rateLimitRequest_redisKeys]
    unfold postRateLimit rateLimitChargeCommands
    rw [if_neg hstatus]
    by_cases hs2 : rl.second > 0 <;> by_cases hh2 : rl.hour > 0 <;>
      by_cases hm2 : rl.month > 0 <;>
      simp [hs2, hh2, hm2, List.mem_flatMap, n_sh, n_sm, n_sst, n_hm, n_hst, n_mst,
        n_hm', n_hst', n_mst', n_sh', n_sm', n_sst']
  · rw [rateLimitRequest_redisKeys]
    unfold postRateLimit
    simp

end Ratelimit

namespace Ratelimit

/-- Witness for C3 at a concrete weight-1 request under quota (2, 500, 0)
whose handler returned 500: the hour counter's net delta is 0 and a
status of 200 refunds nothing. -/
theorem nonOkRefundNetZeroWitness :
    netDelta (rateLimitChargeCommands ⟨2, 500, 0⟩ 1 "default" (-1) false "/api/v1/foo"
          2024 1 2 3 7200 500000
        ++ postRateLimit (rateLimitRequest ⟨2, 500, 0⟩ 1 "default" (-1) false
            "/api/v1/foo" 2024 1 2 3 0 0 0 1 3599 7200 500000).redisKeys
          (rateLimitStatsKey false 2024 1 2 3 (-1) "/api/v1/foo") 1 500)
      (rateLimitHourKey 2024 1 2 3 "default" (-1)) = 0
    ∧ postRateLimit (rateLimitRequest ⟨2, 500, 0⟩ 1 "default" (-1) false "/api/v1/foo"
          2024 1 2 3 0 0 0 1 3599 7200 500000).redisKeys
        (rateLimitStatsKey false 2024 1 2 3 (-1) "/api/v1/foo") 1 200 = [] := by
  exact ⟨(nonOkRefundNetZero ⟨2, 500, 0⟩ 1 "default" (-1) false "/api/v1/foo" 2024 1 2 3
      0 0 0 1 3599 7200 500000 500 (by decide)).2.2.1 (by decide),
    (nonOkRefundNetZero ⟨2, 500, 0⟩ 1 "default" (-1) false "/api/v1/foo" 2024 1 2 3
      0 0 0 1 3599 7200 500000 500 (by decide)).2.2.2.2.2.2⟩

end Ratelimit

namespace Ratelimit

/-- Setting a heap cell and reading it back yields the written record. -/
theorem heapGet_set (l : List RateLimit) (r : Nat) (v : RateLimit) (hr : r < l.length) :
    heapGet (l.set r v) r = v := by
  unfold heapGet
  rw [List.getElem?_set_self']
  simp [hr]

/-- Appending cells does not disturb reads of existing cells. -/
theorem heapGet_append (l ext : List RateLimit) (r : Nat) (hr : r < l.length) :
    heapGet (l ++ ext) r = heapGet l r := by
  unfold heapGet
  rw [List.getElem?_append_left hr]

/-- The products loop only overwrites cells, never grows the heap. -/
theorem applyProducts_length (heap : List RateLimit) (r1 r2 : Nat) (ps : List ApiProduct) :
    (applyProducts heap r1 r2 ps).length = heap.length := by
  induction ps generalizing heap with
  | nil => rfl
  | cons p ps ih =>
    simp only [applyProducts, List.foldl_cons] at *
    rw [ih]
    split_ifs <;> simp

/-- Reading the shared cell after the products loop with both reserved
names aliased to the same cell: the last `nokey`/`free` row wins. -/
theorem applyProducts_get (heap : List RateLimit) (r : Nat) (ps : List ApiProduct)
    (hr : r < heap.length) :
    heapGet (applyProducts heap r r ps) r = lastProductWins (heapGet heap r) ps := by
  induction ps generalizing heap with
  | nil => rfl
  | cons p ps ih =>
    simp only [applyProducts, lastProductWins, List.foldl_cons] at *
    have hstep : ∀ h1 : List RateLimit, r < h1.length →
        heapGet (if p.name = "free" then h1.set r ⟨p.second, p.hour, p.month⟩ else h1) r
          = (if p.name = "free" then (⟨p.second, p.hour, p.month⟩ : RateLimit)
              else heapGet h1 r) := by
      intro h1 hr1
      split_ifs with hf
      · exact heapGet_set h1 r _ hr1
      · rfl
    by_cases hn : p.name = "nokey"
    · have hr1 : r < (heap.set r (⟨p.second, p.hour, p.month⟩ : RateLimit)).length := by
        simpa using hr
      rw [if_pos hn]
      have hr2 : r < (if p.name = "free"
          then (heap.set r (⟨p.second, p.hour, p.month⟩ : RateLimit)).set r
            ⟨p.second, p.hour, p.month⟩
          else heap.set r ⟨p.second, p.hour, p.month⟩).length := by
        split_ifs <;> simpa using hr
      rw [ih _ hr2, hstep _ hr1, heapGet_set heap r _ hr]
      have : (p.name = "nokey" ∨ p.name = "free") := Or.inl hn
      rw [if_pos this]
      split_ifs <;> rfl
    · rw [if_neg hn]
      have hr2 : r < (if p.name = "free" then heap.set r
          (⟨p.second, p.hour, p.month⟩ : RateLimit) else heap).length := by
        split_ifs <;> simpa using hr
      rw [ih _ hr2, hstep heap hr]
      by_cases hf : p.name = "free"
      · rw [if_pos hf, if_pos (Or.inr hf)]
      · rw [if_neg hf, if_neg ?_]
        rintro (h | h)
        · exact hn h
        · exact hf h

/-- The ratelimits loop only appends freshly interned records to the heap. -/
theorem applyRateLimitRows_heap_ext (st : RlLoopState) (now : Int)
    (rows : List RateLimitRow) :
    ∃ ext, (applyRateLimitRows st now rows).heap = st.heap ++ ext := by
  induction rows generalizing st with
  | nil => exact ⟨[], by simp [applyRateLimitRows]⟩
  | cons row rows ih =>
    simp only [applyRateLimitRows, List.foldl_cons] at *
    by_cases hv : row.validUntil < now
    · rw [if_pos hv]
      obtain ⟨ext, hext⟩ := ih { st with
        byUserId := alistErase st.byUserId row.userID
        lastT := if row.changedAt > st.lastT then row.changedAt else st.lastT }
      exact ⟨ext, hext⟩
    · rw [if_neg hv]
      cases hlook : alistLookup st.intern (rlString row.second row.hour row.month) with
      | some p =>
        obtain ⟨ext, hext⟩ := ih { st with
          byUserId := alistInsert st.byUserId row.userID p
          lastT := if row.changedAt > st.lastT then row.changedAt else st.lastT }
        exact ⟨ext, hext⟩
      | none =>
        obtain ⟨ext, hext⟩ := ih
          { byUserId := alistInsert st.byUserId row.userID st.heap.length
            intern := alistInsert st.intern (rlString row.second row.hour row.month)
              st.heap.length
            heap := st.heap ++ [⟨row.second, row.hour, row.month⟩]
            lastT := if row.changedAt > st.lastT then row.changedAt else st.lastT }
        refine ⟨⟨row.second, row.hour, row.month⟩ :: ext, ?_⟩
        rw [hext]
        simp

end Ratelimit

namespace Ratelimit

/-- C10: the no-key quota record and the free quota record are one
aliased record.  When the two pointers coincide before a refresh (as at
startup, where `FreeRatelimit = NoKeyRateLimit`), they still coincide
after any successful refresh; a caller presenting no key and a caller
with a valid key but no explicit user quota resolve to the same quota
record; and its value is whichever of the `nokey`/`free` product rows was
applied last (or the pre-refresh value when neither name occurs). -/
theorem noKeyFreeAliased (g : RLGlobals) (now : Int) (ks : List ApiKeyRow)
    (ls : List RateLimitRow) (ps : List ApiProduct) (k1 k2 : String) (uid : Int)
    (haliased : g.freeRatelimit = g.noKeyRateLimit)
    (hlen : g.noKeyRateLimit < g.heap.length)
    (h1 : alistLookup ((updateRateLimits g now (Except.ok ()) (Except.ok ks)
        (Except.ok ls) (Except.ok ()) (Except.ok ps)).1).userIdByApiKey k1 = none)
    (h2 : alistLookup ((updateRateLimits g now (Except.ok ()) (Except.ok ks)
        (Except.ok ls) (Except.ok ()) (Except.ok ps)).1).userIdByApiKey k2 = some uid)
    (h3 : alistLookup ((updateRateLimits g now (Except.ok ()) (Except.ok ks)
        (Except.ok ls) (Except.ok ()) (Except.ok ps)).1).rateLimitsByUserId uid = none) :
    ((updateRateLimits g now (Except.ok ()) (Except.ok ks) (Except.ok ls) (Except.ok ())
        (Except.ok ps)).1).freeRatelimit
      = ((updateRateLimits g now (Except.ok ()) (Except.ok ks) (Except.ok ls)
        (Except.ok ()) (Except.ok ps)).1).noKeyRateLimit
    ∧ resolveQuota ((updateRateLimits g now (Except.ok ()) (Except.ok ks) (Except.ok ls)
        (Except.ok ()) (Except.ok ps)).1) k1
      = resolveQuota ((updateRateLimits g now (Except.ok ()) (Except.ok ks) (Except.ok ls)
        (Except.ok ()) (Except.ok ps)).1) k2
    ∧ resolveQuota ((updateRateLimits g now (Except.ok ()) (Except.ok ks) (Except.ok ls)
        (Except.ok ()) (Except.ok ps)).1) k1
      = lastProductWins (heapGet g.heap g.noKeyRateLimit) ps := by
  have hfree : ((updateRateLimits g now (Except.ok ()) (Except.ok ks) (Except.ok ls)
      (Except.ok ()) (Except.ok ps)).1).freeRatelimit = g.freeRatelimit := rfl
  have hnokey : ((updateRateLimits g now (Except.ok ()) (Except.ok ks) (Except.ok ls)
      (Except.ok ()) (Except.ok ps)).1).noKeyRateLimit = g.noKeyRateLimit := rfl
  obtain ⟨ext, hext⟩ := applyRateLimitRows_heap_ext
    ⟨g.rateLimitsByUserId, g.rateLimits,
      applyProducts g.heap g.noKeyRateLimit g.freeRatelimit ps, g.lastUpdateRateLimits⟩
    now ls
  have hheap : ((updateRateLimits g now (Except.ok ()) (Except.ok ks) (Except.ok ls)
      (Except.ok ()) (Except.ok ps)).1).heap
      = applyProducts g.heap g.noKeyRateLimit g.freeRatelimit ps ++ ext := hext
  have hlen1 : g.noKeyRateLimit
      < (applyProducts g.heap g.noKeyRateLimit g.freeRatelimit ps).length := by
    rw [applyProducts_length]
    exact hlen
  have hget : heapGet ((updateRateLimits g now (Except.ok ()) (Except.ok ks)
      (Except.ok ls) (Except.ok ()) (Except.ok ps)).1).heap g.noKeyRateLimit
      = lastProductWins (heapGet g.heap g.noKeyRateLimit) ps := by
    rw [hheap, heapGet_append _ _ _ hlen1]
    rw [haliased] at hlen1 ⊢
    exact applyProducts_get g.heap g.noKeyRateLimit ps hlen
  have hq1 : resolveQuota ((updateRateLimits g now (Except.ok ()) (Except.ok ks)
      (Except.ok ls) (Except.ok ()) (Except.ok ps)).1) k1
      = lastProductWins (heapGet g.heap g.noKeyRateLimit) ps := by
    unfold resolveQuota
    rw [h1, hnokey]
    exact hget
  have hq2 : resolveQuota ((updateRateLimits g now (Except.ok ()) (Except.ok ks)
      (Except.ok ls) (Except.ok ()) (Except.ok ps)).1) k2
      = lastProductWins (heapGet g.heap g.noKeyRateLimit) ps := by
    unfold resolveQuota
    rw [h2]
    dsimp only
    rw [h3, hfree, haliased]
    exact hget
  refine ⟨?_, ?_, hq1⟩
  · rw [hfree, hnokey]
    exact haliased
  · rw [hq1, hq2]

/-- Witness for C10: the startup state refreshed with one `free` product
row, one fresh api key for user 5 and no user quotas — the unknown-key
caller and the known-key caller resolve to the same (3, 4, 5) quota. -/
theorem noKeyFreeAliasedWitness :
    resolveQuota ((updateRateLimits initialGlobals 0 (Except.ok ())
        (Except.ok [⟨5, "KEY", 100, 1⟩]) (Except.ok []) (Except.ok ())
        (Except.ok [⟨"free", 3, 4, 5⟩])).1) "other"
      = resolveQuota ((updateRateLimits initialGlobals 0 (Except.ok ())
        (Except.ok [⟨5, "KEY", 100, 1⟩]) (Except.ok []) (Except.ok ())
        (Except.ok [⟨"free", 3, 4, 5⟩])).1) "KEY"
    ∧ resolveQuota ((updateRateLimits initialGlobals 0 (Except.ok ())
        (Except.ok [⟨5, "KEY", 100, 1⟩]) (Except.ok []) (Except.ok ())
        (Except.ok [⟨"free", 3, 4, 5⟩])).1) "other"
      = lastProductWins (heapGet initialGlobals.heap initialGlobals.noKeyRateLimit)
          [⟨"free", 3, 4, 5⟩] := by
  have h := noKeyFreeAliased initialGlobals 0 [⟨5, "KEY", 100, 1⟩] []
    [⟨"free", 3, 4, 5⟩] "other" "KEY" 5 rfl (by decide) (by decide) (by decide) (by decide)
  exact ⟨h.2.1, h.2.2⟩

end Ratelimit
